import Mathlib

/-!
Verification development for the CrawlDock repository
(src/docker_selenium.py and src/docker_controler.py).

The Python code is shallowly embedded as executable Lean definitions.
External effects (the Docker runtime, the Selenium driver, the filesystem,
trafilatura, pypdf) are modelled as explicit oracle parameters; everything
the two Python files themselves compute is translated directly.
-/

namespace CrawlDock

set_option maxRecDepth 200000

/-! ## Python string primitives used by the source

`str.strip`, `str.replace(pat, "")` and `int(...)` are modelled on
`List Char` with fuel so that every definition reduces in the kernel.
-/

/-- Python `str.strip()`: drop leading and trailing whitespace. -/
def pyStrip (s : String) : String :=
  ⟨((s.data.dropWhile Char.isWhitespace).reverse.dropWhile Char.isWhitespace).reverse⟩

/-- One pass of Python `str.replace(pat, "")`: remove all non-overlapping
occurrences of `pat`, scanning left to right.  Fuel bounds recursion. -/
def removeOccsFuel (pat : List Char) : Nat → List Char → List Char
  | 0, l => l
  | _ + 1, [] => []
  | fuel + 1, c :: rest =>
    if pat.isPrefixOf (c :: rest) && !pat.isEmpty then
      removeOccsFuel pat fuel (List.drop pat.length (c :: rest))
    else
      c :: removeOccsFuel pat fuel rest

/-- Python `s.replace(pat, "")`. -/
def pyRemoveAll (s pat : String) : String :=
  ⟨removeOccsFuel pat.data (s.data.length + 1) s.data⟩

/-- Value of a nonempty all-digit character list; `none` otherwise. -/
def digitsVal (l : List Char) : Option Nat :=
  if l = [] then none
  else if l.all Char.isDigit then
    some (l.foldl (fun acc c => acc * 10 + (c.toNat - 48)) 0)
  else none

/-- Python `int(s)` on strings: optional sign and decimal digits after
stripping whitespace; raising `ValueError` is modelled as `none`. -/
def pyInt (s : String) : Option Int :=
  match (pyStrip s).data with
  | '-' :: rest => (digitsVal rest).map (fun n => -(n : Int))
  | '+' :: rest => (digitsVal rest).map (fun n => (n : Int))
  | l => (digitsVal l).map (fun n => (n : Int))

/-! ## Data model (docker_selenium.py) -/

/-- `DockerConfig` (docker_selenium.py).  Only the fields the embedded
logic reads are kept.  `network_prefix` in the source is renamed
`netBase` here. -/
structure DockerConfig where
  image : String
  netBase : String
deriving DecidableEq

/-- The configuration built by `DockerConfig()` defaults. -/
def defaultConfig : DockerConfig :=
  { image := "selenium/standalone-chrome", netBase := "127.0.0" }

/-- `DockerContainer` dataclass. -/
structure DockerContainer where
  url : String
  name : String
  download_dir : String
deriving DecidableEq

/-- One entry of `docker ps --format json` as consumed by the source:
the `Image`, `State` and `Names` fields. -/
structure DockerPS where
  Image : String
  State : String
  Names : String
deriving DecidableEq

/-- Parsing one listed name in `get_free_docker_id`:
`id = str(docker["Names"]).strip().replace("selenium-chrome", "")`
then `int(id) if id else 0`; `none` models the `ValueError` path. -/
def pyParseId (name : String) : Option Int :=
  let idStr := pyRemoveAll (pyStrip name) "selenium-chrome"
  if idStr = "" then some 0 else pyInt idStr

/-- The `exist_ids` accumulation loop of `get_free_docker_id`: ids of the
listed containers whose `Image` equals the configured image and whose
`State` is exactly `"running"`; `none` models the caught exception when
some such name fails integer parsing (the whole call then returns `None`). -/
def existIds (image : String) : List DockerPS → Option (List Int)
  | [] => some []
  | d :: rest =>
    if d.Image = image ∧ d.State = "running" then
      match pyParseId d.Names with
      | none => none
      | some i => (existIds image rest).map (fun l => i :: l)
    else existIds image rest

/-- The `free_ids` list of `get_free_docker_id`: the identities in
`range(1, 250)` not among `exist_ids` (empty when parsing failed). -/
def freeIdsOf (image : String) (info : List DockerPS) : List Nat :=
  match existIds image info with
  | none => []
  | some ids => (List.range' 1 249).filter (fun i => decide (¬ (i : Int) ∈ ids))

/-- `DockerSeleniumManager.get_free_docker_id`.  `info` is the manager's
cached `self.docker_info`; `shuffle` stands for `random.shuffle` and is
quantified over in the theorems (restricted to permutations). -/
def getFreeDockerId (image : String) (info : List DockerPS)
    (shuffle : List Nat → List Nat) : Option Nat :=
  match existIds image info with
  | none => none
  | some _ =>
    match shuffle (freeIdsOf image info) with
    | [] => none
    | i :: _ => some i

/-- The container name `f"selenium-chrome{docker_id}"`. -/
def mkName (i : Nat) : String := "selenium-chrome" ++ toString i

/-- The container address `f"{self.config.network_prefix}.{docker_id}"`. -/
def mkUrl (cfg : DockerConfig) (i : Nat) : String :=
  cfg.netBase ++ "." ++ toString i

/-- The per-container download directory `os.path.join("downloads", name)`
(the `abspath` root is environment noise and is left off). -/
def downloadDirOf (name : String) : String := "downloads/" ++ name

/-! ## Runtime environment

The external Docker runtime is an explicit state: the current live
listing plus oracles for the remaining failure modes of `docker run`
and for the readiness probe (`wait_for_selenium_server`). -/

structure RuntimeEnv where
  /-- Current `docker ps` listing (ground truth, distinct from any cache). -/
  live : List DockerPS
  /-- Whether `docker run` succeeds for this name, all else being equal. -/
  accepts : String → Bool
  /-- Outcome of the readiness probe against this address. -/
  ready : String → Bool

/-- `docker run --name name ...`: fails when the name is already in use by
a live container, otherwise succeeds per the oracle and the new container
joins the live listing in the running state. -/
def dockerRun (image : String) (env : RuntimeEnv) (name : String) :
    Bool × RuntimeEnv :=
  if name ∈ env.live.map DockerPS.Names then (false, env)
  else if env.accepts name then
    (true, { env with live := env.live ++ [⟨image, "running", name⟩] })
  else (false, env)

/-- `DockerSeleniumManager.start_selenium_docker`.  `cached` is the
manager's `self.docker_info` (the listing as of the last
`update_docker_info` call) — allocation reads it, not `env.live`.
Every caught exception collapses to `none`; a container left half
started by a failed readiness probe remains in the live listing. -/
def startSeleniumDocker (cfg : DockerConfig) (shuffle : List Nat → List Nat)
    (cached : List DockerPS) (env : RuntimeEnv) :
    Option DockerContainer × RuntimeEnv :=
  match getFreeDockerId cfg.image cached shuffle with
  | none => (none, env)
  | some i =>
    match dockerRun cfg.image env (mkName i) with
    | (false, e) => (none, e)
    | (true, e) =>
      if e.ready (mkUrl cfg i) then
        (some ⟨mkUrl cfg i, mkName i, downloadDirOf (mkName i)⟩, e)
      else (none, e)

/-- `DockerSeleniumManager.stop_docker_container`: `os.system("docker stop …")`
inside `try/except` — the outcome of the stop command (including a raised
exception, the `error` case of the argument) is absorbed and only logged. -/
def stopDockerContainer (osStop : Except String Int) : Except String Unit :=
  match osStop with
  | Except.ok _ => Except.ok ()
  | Except.error _ => Except.ok ()

/-! ## Pool manager (docker_controler.py) -/

/-- `MINIMUM_SELENIUM_CONTAINERS` (docker_controler.py). -/
def MINIMUM_SELENIUM_CONTAINERS : Nat := 2

/-- The mutable state of `DockerInfoCache` relevant to the pool:
`self.containers`, `self.assigned` (insertion-ordered string-keyed dicts,
modelled as association lists with unique keys in every reachable state)
and the manager object's cached `self.docker_info`.  The HTTP response
cache `self.cache` carries no pool state and is omitted. -/
structure PoolState where
  containers : List (String × DockerContainer)
  assigned : List (String × DockerContainer)
  managerInfo : List DockerPS
deriving DecidableEq

/-- Keys of a dict. -/
def dkeys (d : List (String × DockerContainer)) : List String :=
  d.map Prod.fst

/-- Python dict assignment `d[k] = v`: overwrite in place or append. -/
def dinsert (d : List (String × DockerContainer)) (k : String)
    (v : DockerContainer) : List (String × DockerContainer) :=
  if d.any (fun p => decide (p.fst = k)) then
    d.map (fun p => if p.fst = k then (k, v) else p)
  else d ++ [(k, v)]

/-- Python dict lookup `d[k]` (a `KeyError` would be `none`). -/
def dget (d : List (String × DockerContainer)) (k : String) :
    Option DockerContainer :=
  (d.find? (fun p => decide (p.fst = k))).map Prod.snd

/-- The list `list(set(self.containers.keys()) - set(self.assigned.keys()))`
before the arbitrary ordering that `list(set(...))` applies. -/
def unassignedKeys (s : PoolState) : List String :=
  (dkeys s.containers).filter (fun k => decide (¬ k ∈ dkeys s.assigned))

/-- Result of one `DockerInfoCache.assign_container` call. -/
structure AssignResult where
  /-- The returned record; `none` models the uncaught `AttributeError`
  raised to the caller when provisioning fails (`container` is `None`). -/
  result : Option DockerContainer
  pool : PoolState
  env : RuntimeEnv
  /-- How many `start_selenium_docker` calls the call performed. -/
  provisionCalls : Nat

/-- `DockerInfoCache.assign_container`.  `pick` stands for the arbitrary
iteration order of `list(set(...) - set(...))` (quantified over
permutations in the theorems); provisioning runs against the manager's
cached listing `s.managerInfo`.  On the provisioning-failure path the
exception escapes before any dict mutation, so the pool is returned
unchanged. -/
def assignContainer (cfg : DockerConfig) (pick : List String → List String)
    (shuffle : List Nat → List Nat) (env : RuntimeEnv) (s : PoolState) :
    AssignResult :=
  match pick (unassignedKeys s) with
  | [] =>
    match startSeleniumDocker cfg shuffle s.managerInfo env with
    | (none, e) => ⟨none, s, e, 1⟩
    | (some c, e) =>
      ⟨some c,
       { s with containers := dinsert s.containers c.name c,
                assigned := dinsert s.assigned c.name c }, e, 1⟩
  | k :: _ =>
    match dget s.containers k with
    | none => ⟨none, s, env, 0⟩
    | some c =>
      ⟨some c, { s with assigned := dinsert s.assigned c.name c }, env, 0⟩

/-- `dead_containers = set(self.containers.keys()) - set(names)`. -/
def deadOf (s : PoolState) (names : List String) : List String :=
  (dkeys s.containers).filter (fun k => decide (¬ k ∈ names))

/-- The removal loop of `DockerInfoCache.update_docker_info`: pop every
dead name from `containers`, and from `assigned` when present. -/
def reconcileRemove (names : List String) (s : PoolState) : PoolState :=
  { s with
    containers := s.containers.filter (fun p => decide (¬ p.fst ∈ deadOf s names)),
    assigned := s.assigned.filter (fun p => decide (¬ p.fst ∈ deadOf s names)) }

/-- The spare top-up loop `for _ in range(MINIMUM_SELENIUM_CONTAINERS)`:
each iteration provisions against the (just refreshed) cached listing and
inserts into `containers` only.  A failed provisioning raises
`AttributeError`, which the enclosing `except` catches — the remaining
iterations (and the cache write) are skipped, keeping the state reached
so far. -/
def topup (cfg : DockerConfig) (shuffles : Nat → List Nat → List Nat) :
    Nat → Nat → PoolState → RuntimeEnv → PoolState × RuntimeEnv
  | _, 0, s, env => (s, env)
  | i, fuel + 1, s, env =>
    match startSeleniumDocker cfg (shuffles i) s.managerInfo env with
    | (none, e) => (s, e)
    | (some c, e) =>
      topup cfg shuffles (i + 1) fuel
        { s with containers := dinsert s.containers c.name c } e

/-- The state reached by the first half of `update_docker_info`: the
manager's cached listing refreshed to the fresh `docker ps` result
(line 43) and the dead containers purged (lines 46–51). -/
def reconciledState (env : RuntimeEnv) (s : PoolState) : PoolState :=
  reconcileRemove (env.live.map DockerPS.Names) { s with managerInfo := env.live }

/-- `DockerInfoCache.update_docker_info`: refresh the manager's cached
listing from the runtime, purge containers absent from it, then top up
when `len(containers) - len(assigned) < MINIMUM_SELENIUM_CONTAINERS`. -/
def updateDockerInfo (cfg : DockerConfig)
    (shuffles : Nat → List Nat → List Nat) (env : RuntimeEnv)
    (s : PoolState) : PoolState × RuntimeEnv :=
  if ((reconciledState env s).containers.length : Int) -
      ((reconciledState env s).assigned.length : Int) <
      (MINIMUM_SELENIUM_CONTAINERS : Int) then
    topup cfg shuffles 0 MINIMUM_SELENIUM_CONTAINERS (reconciledState env s) env
  else (reconciledState env s, env)

/-- States reachable from the freshly constructed `DockerInfoCache`
(empty dicts, empty cached listing) by any interleaving of
`assign_container` and `update_docker_info` steps, under arbitrary
oracles. -/
inductive Reachable (cfg : DockerConfig) : PoolState → Prop where
  | init : Reachable cfg ⟨[], [], []⟩
  | assignStep (pick : List String → List String)
      (shuffle : List Nat → List Nat) (env : RuntimeEnv) (s : PoolState) :
      Reachable cfg s →
      Reachable cfg (assignContainer cfg pick shuffle env s).pool
  | updateStep (shuffles : Nat → List Nat → List Nat) (env : RuntimeEnv)
      (s : PoolState) : Reachable cfg s →
      Reachable cfg (updateDockerInfo cfg shuffles env s).1

/-- Every stored record is keyed by its own `name` (all insertions in the
source use `d[container.name] = container`). -/
def KeysConsistent (d : List (String × DockerContainer)) : Prop :=
  ∀ p ∈ d, p.snd.name = p.fst

/-- A permutation-valued reordering (`random.shuffle`, `list(set(...))`). -/
def PermFun (f : List Nat → List Nat) : Prop := ∀ l, (f l).Perm l

/-- A permutation-valued reordering on string lists. -/
def PermFunS (f : List String → List String) : Prop := ∀ l, (f l).Perm l

/-- The inductive pool invariant: every stored record is keyed by its own
name, and every assigned key is a known key. -/
def PoolInv (s : PoolState) : Prop :=
  KeysConsistent s.containers ∧
  ∀ k ∈ dkeys s.assigned, k ∈ dkeys s.containers

/-- The manager's cached listing is fresh enough for the pool: there are
ids backing it, and no key of `containers` is the canonical name of an
identity that the cached listing reports free. -/
def cacheFresh (cfg : DockerConfig) (s : PoolState) : Prop :=
  ∃ ids, existIds cfg.image s.managerInfo = some ids ∧
    ∀ k ∈ dkeys s.containers, ∀ j : Nat, ¬ (j : Int) ∈ ids → k ≠ mkName j

/-! ## Lock-usage traces (docker_controler.py)

For the concurrency claim, the two methods are abstracted to the ordered
sequence of their lock operations, `containers`/`assigned` accesses,
provisioning calls and the `self.cache` write, read off line by line from
the source. -/

inductive PoolEv where
  | acquire
  | release
  | readMaps
  | writeMaps
  | provisionCall
  | writeCache
deriving DecidableEq

/-- Event trace of `assign_container` (lines 26–39): the whole body runs
inside `with self.lock`; `provisions` selects the branch taken. -/
def assignTrace (provisions : Bool) : List PoolEv :=
  [PoolEv.acquire, PoolEv.readMaps] ++
  (if provisions then [PoolEv.provisionCall, PoolEv.writeMaps]
   else [PoolEv.readMaps]) ++
  [PoolEv.writeMaps, PoolEv.release]

/-- Event trace of `update_docker_info` (lines 41–63) with `n` executed
top-up iterations (`n ≤ 2` in any run): key/length reads, the dead-entry
pops, the provisioning insertions — all outside the lock — and finally
the cache write under `with self.lock`. -/
def updateTrace (n : Nat) : List PoolEv :=
  [PoolEv.readMaps, PoolEv.writeMaps, PoolEv.readMaps] ++
  (List.replicate n [PoolEv.provisionCall, PoolEv.writeMaps]).flatten ++
  [PoolEv.acquire, PoolEv.writeCache, PoolEv.release]

/-- Whether the lock is held when the event at index `i` runs. -/
def heldAt (tr : List PoolEv) (i : Nat) : Bool :=
  decide ((tr.take i).count PoolEv.acquire > (tr.take i).count PoolEv.release)

/-- Every `containers`/`assigned` mutation in the trace runs under the lock. -/
abbrev lockedWrites (tr : List PoolEv) : Prop :=
  ∀ i : Fin tr.length, tr.get i = PoolEv.writeMaps → heldAt tr i = true

/-- No provisioning call in the trace runs while the lock is held. -/
abbrev provisionOutsideLock (tr : List PoolEv) : Prop :=
  ∀ i : Fin tr.length, tr.get i = PoolEv.provisionCall → heldAt tr i = false

/-- Every provisioning call in the trace runs while the lock is held. -/
abbrev provisionUnderLock (tr : List PoolEv) : Prop :=
  ∀ i : Fin tr.length, tr.get i = PoolEv.provisionCall → heldAt tr i = true

/-- Every map mutation and provisioning call runs without the lock. -/
abbrev mapsOutsideLock (tr : List PoolEv) : Prop :=
  ∀ i : Fin tr.length,
    (tr.get i = PoolEv.writeMaps ∨ tr.get i = PoolEv.provisionCall) →
    heldAt tr i = false

/-- The `self.cache` write runs under the lock. -/
abbrev cacheUnderLock (tr : List PoolEv) : Prop :=
  ∀ i : Fin tr.length, tr.get i = PoolEv.writeCache → heldAt tr i = true

/-! ## Scrape orchestrator pieces (docker_selenium.py) -/

/-- Python truthiness test `not page_text` on an optional string. -/
def pyFalsy : Option String → Bool
  | none => true
  | some t => decide (t = "")

/-- `os.path.join(dir, f)` for a relative `f`. -/
def pathJoin (d f : String) : String := d ++ "/" ++ f

/-- Python `str.endswith`. -/
def pyEndsWith (s suf : String) : Bool := suf.data.isSuffixOf s.data

/-- The download-directory scan of `_return_page_html`: the first listed
file whose joined path ends in `".pdf"` (the loop `break`s there). -/
def findPdf (dir : String) (files : List String) : Option String :=
  files.find? (fun f => pyEndsWith (pathJoin dir f) ".pdf")

/-- The tail of `WebPageScraper._return_page_html` after the page source,
screenshot, links and `trafilatura` text (`pageText`, with an extraction
exception collapsed to `none`) have been produced.  `files` lists the
container's download directory and `pdfText` is the pypdf page-text
extraction oracle.  Returns `(page_html, page_text, links, screenshot)`. -/
def returnPageHtml (pageHtml : String) (shot : String) (links : List String)
    (pageText : Option String) (dir : String) (files : List String)
    (pdfText : String → String) :
    Option String × Option String × List String × Option String :=
  if pyFalsy pageText then
    match findPdf dir files with
    | some f =>
      (some (pdfText (pathJoin dir f)), some (pdfText (pathJoin dir f)),
       [], none)
    | none => (some pageHtml, pageText, links, some shot)
  else (some pageHtml, pageText, links, some shot)

/-- `WebPageScraper.stop_driver`.  `quitResult` is the outcome of
`self.driver.quit()` (not wrapped in `try`), `osStop` the outcome of the
stop command inside `stop_docker_container`.  The final
`shutil.rmtree(self.docker_container.download_dir, ignore_errors=True)`
sits outside the `if self.docker_container:` guard, so it dereferences
`None` when no container was ever obtained. -/
def stopDriver (quitResult : Except String Unit) (osStop : Except String Int)
    (driver : Option Unit) (container : Option DockerContainer) :
    Except String Unit :=
  match driver, quitResult with
  | some _, Except.error e => Except.error e
  | _, _ =>
    match container with
    | some _ =>
      match stopDockerContainer osStop with
      | Except.ok _ => Except.ok ()
      | Except.error e => Except.error e
    | none =>
      Except.error "AttributeError: NoneType object has no attribute download_dir"

/-! ## Concrete instances used by counterexamples and witnesses -/

/-- A runtime with nothing live that accepts every start and reports
every container ready. -/
def envAllOk : RuntimeEnv := ⟨[], fun _ => true, fun _ => true⟩

/-- A runtime in which only `selenium-chrome1` is live. -/
def envOne : RuntimeEnv :=
  ⟨[⟨defaultConfig.image, "running", "selenium-chrome1"⟩],
   fun _ => true, fun _ => true⟩

/-- A runtime that rejects every `docker run`. -/
def envReject : RuntimeEnv := ⟨[], fun _ => false, fun _ => true⟩

/-- A shuffle that moves `5` to the front when present (a permutation). -/
def shuffleFive (l : List Nat) : List Nat :=
  if 5 ∈ l then 5 :: l.erase 5 else l

/-- A shuffle that moves `2` to the front when present (a permutation). -/
def shuffleTwo (l : List Nat) : List Nat :=
  if 2 ∈ l then 2 :: l.erase 2 else l

/-- The record of a container with identity 1. -/
def contOne : DockerContainer :=
  ⟨"127.0.0.1", "selenium-chrome1", "downloads/selenium-chrome1"⟩

/-- The record of a container with identity 2. -/
def contTwo : DockerContainer :=
  ⟨"127.0.0.2", "selenium-chrome2", "downloads/selenium-chrome2"⟩

/-- The record of a container with identity 5. -/
def contFive : DockerContainer :=
  ⟨"127.0.0.5", "selenium-chrome5", "downloads/selenium-chrome5"⟩

/-- A pool state whose single container, identity 5, is assigned while the
manager's cached listing is empty (the container was provisioned after the
last reconciliation and has since died in the runtime). -/
def poolStale : PoolState :=
  ⟨[("selenium-chrome5", contFive)], [("selenium-chrome5", contFive)], []⟩

/-- Known `{selenium-chrome1, selenium-chrome2}`, assigned
`{selenium-chrome1}`: the scenario state of the reconciliation claim. -/
def poolAB : PoolState :=
  ⟨[("selenium-chrome1", contOne), ("selenium-chrome2", contTwo)],
   [("selenium-chrome1", contOne)], []⟩

/-- A manager cache listing only `selenium-chrome1` as running. -/
def cachedOne : List DockerPS :=
  [⟨defaultConfig.image, "running", "selenium-chrome1"⟩]

/-- A listing whose only matching running container has a name that does
not parse to an integer after the prefix strip. -/
def infoBad : List DockerPS :=
  [⟨defaultConfig.image, "running", "selenium-chromeZ"⟩]

/-- A listing with the configured image running as identities 3 and 7
(the live set `{3, 7}` of the allocator scenario). -/
def infoLive37 : List DockerPS :=
  [⟨defaultConfig.image, "running", "selenium-chrome3"⟩,
   ⟨defaultConfig.image, "running", "selenium-chrome7"⟩]

/-! ## Helper lemmas -/

theorem mem_range_one {m : Nat} : m ∈ List.range' 1 249 ↔ 1 ≤ m ∧ m ≤ 249 := by
  rw [List.mem_range']
  constructor
  · rintro ⟨i, hi, rfl⟩
    omega
  · rintro ⟨h1, h2⟩
    exact ⟨m - 1, by omega, by omega⟩

theorem mem_dkeys {d : List (String × DockerContainer)} {k : String} :
    k ∈ dkeys d ↔ ∃ p ∈ d, p.fst = k := by
  simp [dkeys, List.mem_map]

theorem mem_dkeys_dinsert {d : List (String × DockerContainer)} {k x : String}
    {v : DockerContainer} :
    x ∈ dkeys (dinsert d k v) ↔ x ∈ dkeys d ∨ x = k := by
  unfold dinsert
  split
  case isTrue h =>
    have hk : k ∈ dkeys d := by
      rcases List.any_eq_true.1 h with ⟨p, hp, hpk⟩
      exact mem_dkeys.2 ⟨p, hp, of_decide_eq_true hpk⟩
    have hkeys : dkeys (d.map fun p => if p.fst = k then (k, v) else p) = dkeys d := by
      simp only [dkeys, List.map_map]
      apply List.map_congr_left
      intro p _
      by_cases hc : p.fst = k
      · simp [hc]
      · simp [hc]
    rw [hkeys]
    constructor
    · exact Or.inl
    · rintro (h1 | rfl)
      · exact h1
      · exact hk
  case isFalse _ =>
    simp [dkeys, List.map_append, List.mem_append]

theorem kc_dinsert {d : List (String × DockerContainer)} {k : String}
    {v : DockerContainer} (hd : KeysConsistent d) (hv : v.name = k) :
    KeysConsistent (dinsert d k v) := by
  unfold dinsert
  split
  case isTrue _ =>
    intro p hp
    rcases List.mem_map.1 hp with ⟨q, hq, rfl⟩
    by_cases hc : q.fst = k
    · simp [hc, hv]
    · simpa [hc] using hd q hq
  case isFalse _ =>
    intro p hp
    rcases List.mem_append.1 hp with h1 | h1
    · exact hd p h1
    · rcases List.mem_singleton.1 h1 with rfl
      exact hv

theorem kc_filter {d : List (String × DockerContainer)}
    {f : String × DockerContainer → Bool} (hd : KeysConsistent d) :
    KeysConsistent (d.filter f) :=
  fun p hp => hd p (List.mem_of_mem_filter hp)

theorem dget_some {d : List (String × DockerContainer)} {k : String}
    {c : DockerContainer} (h : dget d k = some c) : (k, c) ∈ d := by
  unfold dget at h
  rcases Option.map_eq_some'.1 h with ⟨p, hfind, hsnd⟩
  have hp := List.find?_some hfind
  have hfst : p.fst = k := by simpa using hp
  have hmem : p ∈ d := List.mem_of_find?_eq_some hfind
  have : p = (k, c) := by
    cases p
    simp only [Prod.mk.injEq]
    exact ⟨hfst, hsnd⟩
  rwa [this] at hmem

theorem mem_dkeys_dget {d : List (String × DockerContainer)} {k : String}
    (h : k ∈ dkeys d) : ∃ c, dget d k = some c := by
  induction d with
  | nil => simp [dkeys] at h
  | cons p rest ih =>
    by_cases hc : p.fst = k
    · exact ⟨p.snd, by simp [dget, List.find?_cons, hc]⟩
    · have hk : k ∈ dkeys rest := by
        rcases mem_dkeys.1 h with ⟨q, hq, hqk⟩
        rcases List.mem_cons.1 hq with rfl | hq2
        · exact absurd hqk hc
        · exact mem_dkeys.2 ⟨q, hq2, hqk⟩
      rcases ih hk with ⟨c, hget⟩
      exact ⟨c, by simpa [dget, List.find?_cons, hc] using hget⟩

theorem permFun_head_mem {f : List Nat → List Nat} (hf : PermFun f)
    {l xs : List Nat} {x : Nat} (h : f l = x :: xs) : x ∈ l :=
  (hf l).mem_iff.1 (by rw [h]; exact List.mem_cons_self x xs)

theorem permFunS_head_mem {f : List String → List String} (hf : PermFunS f)
    {l xs : List String} {x : String} (h : f l = x :: xs) : x ∈ l :=
  (hf l).mem_iff.1 (by rw [h]; exact List.mem_cons_self x xs)

theorem permFun_nil_iff {f : List Nat → List Nat} (hf : PermFun f)
    {l : List Nat} : f l = [] ↔ l = [] := by
  constructor
  · intro h
    exact (h ▸ hf l).symm.eq_nil
  · rintro rfl
    exact (hf []).eq_nil

theorem permFunS_nil_iff {f : List String → List String} (hf : PermFunS f)
    {l : List String} : f l = [] ↔ l = [] := by
  constructor
  · intro h
    exact (h ▸ hf l).symm.eq_nil
  · rintro rfl
    exact (hf []).eq_nil

theorem start_shape {cfg : DockerConfig} {shuffle : List Nat → List Nat}
    {cached : List DockerPS} {env e : RuntimeEnv} {c : DockerContainer}
    (hsh : PermFun shuffle)
    (h : startSeleniumDocker cfg shuffle cached env = (some c, e)) :
    ∃ (i : Nat) (ids : List Int), existIds cfg.image cached = some ids ∧
      ¬ (i : Int) ∈ ids ∧ 1 ≤ i ∧ i ≤ 249 ∧
      c = ⟨mkUrl cfg i, mkName i, downloadDirOf (mkName i)⟩ ∧
      ¬ c.name ∈ env.live.map DockerPS.Names ∧
      e.live = env.live ++ [⟨cfg.image, "running", c.name⟩] := by
  unfold startSeleniumDocker at h
  cases hg : getFreeDockerId cfg.image cached shuffle with
  | none => simp [hg] at h
  | some i =>
    simp only [hg] at h
    have hmem : i ∈ freeIdsOf cfg.image cached := by
      unfold getFreeDockerId at hg
      cases hex : existIds cfg.image cached with
      | none => rw [hex] at hg; exact absurd hg (by simp)
      | some ids =>
        rw [hex] at hg
        cases hsf : shuffle (freeIdsOf cfg.image cached) with
        | nil => rw [hsf] at hg; exact absurd hg (by simp)
        | cons j rest =>
          rw [hsf] at hg
          have hj : j = i := by simpa using hg
          exact hj ▸ permFun_head_mem hsh hsf
    rcases hids : existIds cfg.image cached with _ | ids
    · rw [freeIdsOf, hids] at hmem
      simp at hmem
    · have hfree : ¬ (i : Int) ∈ ids ∧ 1 ≤ i ∧ i ≤ 249 := by
        rw [freeIdsOf, hids] at hmem
        rcases List.mem_filter.1 hmem with ⟨hr, hdec⟩
        exact ⟨of_decide_eq_true hdec, (mem_range_one.1 hr).1, (mem_range_one.1 hr).2⟩
      unfold dockerRun at h
      by_cases hlive : mkName i ∈ env.live.map DockerPS.Names
      · simp only [if_pos hlive] at h
        simp at h
      · rw [if_neg hlive] at h
        by_cases hacc : env.accepts (mkName i) = true
        · simp only [if_pos hacc] at h
          by_cases hrdy : env.ready (mkUrl cfg i) = true
          · simp only [hrdy, if_true] at h
            rcases Prod.mk.injEq .. ▸ h with ⟨h1, h2⟩
            have hc2 : c = ⟨mkUrl cfg i, mkName i, downloadDirOf (mkName i)⟩ :=
              (Option.some.inj h1).symm
            refine ⟨i, ids, rfl, hfree.1, hfree.2.1, hfree.2.2, hc2, ?_, ?_⟩
            · rw [hc2]; exact hlive
            · rw [hc2, ← h2]
          · simp only [hrdy] at h
            simp at h
        · rw [if_neg hacc] at h
          simp at h

theorem topup_assigned (cfg : DockerConfig) (shuffles : Nat → List Nat → List Nat) :
    ∀ (fuel i : Nat) (s : PoolState) (env : RuntimeEnv),
      (topup cfg shuffles i fuel s env).1.assigned = s.assigned := by
  intro fuel
  induction fuel with
  | zero => intro i s env; rfl
  | succ n ih =>
    intro i s env
    unfold topup
    cases h : startSeleniumDocker cfg (shuffles i) s.managerInfo env with
    | mk o e =>
      cases o with
      | none => rfl
      | some c => exact ih (i + 1) _ e

theorem topup_managerInfo (cfg : DockerConfig) (shuffles : Nat → List Nat → List Nat) :
    ∀ (fuel i : Nat) (s : PoolState) (env : RuntimeEnv),
      (topup cfg shuffles i fuel s env).1.managerInfo = s.managerInfo := by
  intro fuel
  induction fuel with
  | zero => intro i s env; rfl
  | succ n ih =>
    intro i s env
    unfold topup
    cases h : startSeleniumDocker cfg (shuffles i) s.managerInfo env with
    | mk o e =>
      cases o with
      | none => rfl
      | some c => exact ih (i + 1) _ e

theorem topup_containers_mono (cfg : DockerConfig)
    (shuffles : Nat → List Nat → List Nat) :
    ∀ (fuel i : Nat) (s : PoolState) (env : RuntimeEnv) (k : String),
      k ∈ dkeys s.containers →
      k ∈ dkeys (topup cfg shuffles i fuel s env).1.containers := by
  intro fuel
  induction fuel with
  | zero => intro i s env k hk; exact hk
  | succ n ih =>
    intro i s env k hk
    unfold topup
    cases h : startSeleniumDocker cfg (shuffles i) s.managerInfo env with
    | mk o e =>
      cases o with
      | none => exact hk
      | some c => exact ih (i + 1) _ e k (mem_dkeys_dinsert.2 (Or.inl hk))

theorem topup_kc (cfg : DockerConfig) (shuffles : Nat → List Nat → List Nat) :
    ∀ (fuel i : Nat) (s : PoolState) (env : RuntimeEnv),
      KeysConsistent s.containers →
      KeysConsistent (topup cfg shuffles i fuel s env).1.containers := by
  intro fuel
  induction fuel with
  | zero => intro i s env hkc; exact hkc
  | succ n ih =>
    intro i s env hkc
    unfold topup
    cases h : startSeleniumDocker cfg (shuffles i) s.managerInfo env with
    | mk o e =>
      cases o with
      | none => exact hkc
      | some c => exact ih (i + 1) _ e (kc_dinsert hkc rfl)

theorem getFree_some_mem {image : String} {info : List DockerPS}
    {shuffle : List Nat → List Nat} {i : Nat} (hsh : PermFun shuffle)
    (hg : getFreeDockerId image info shuffle = some i) :
    i ∈ freeIdsOf image info := by
  unfold getFreeDockerId at hg
  cases hex : existIds image info with
  | none => rw [hex] at hg; exact absurd hg (by simp)
  | some ids =>
    rw [hex] at hg
    cases hsf : shuffle (freeIdsOf image info) with
    | nil => rw [hsf] at hg; exact absurd hg (by simp)
    | cons j rest =>
      rw [hsf] at hg
      have hj : j = i := by simpa using hg
      exact hj ▸ permFun_head_mem hsh hsf

/-! ## Claim C3: lock discipline -/

/-- C3, counterexample.  The claim — every read-modify-write of
`containers`/`assigned` (in `assign_container` and in
`update_docker_info`) runs under the lock, and the lock is never held
across the provisioning call — is false on both counts:
`update_docker_info` mutates the maps with the lock not held (it takes
the lock only for the `self.cache` write), and `assign_container`
performs its provisioning call inside `with self.lock`. -/
theorem lock_discipline_claim_false :
    ¬ ((lockedWrites (assignTrace true) ∧ lockedWrites (assignTrace false) ∧
        lockedWrites (updateTrace 2)) ∧
       (provisionOutsideLock (assignTrace true) ∧
        provisionOutsideLock (updateTrace 2))) := by
  decide

/-- C3, amended.  The locking the source actually implements:
`assign_container` runs its whole body — map reads and writes and the
provisioning call included — while holding the lock; `update_docker_info`
performs every map mutation and every provisioning call without the lock
(`n` ranges over the realizable top-up iteration counts 0, 1, 2) and
acquires the lock only around the `self.cache` write. -/
theorem lock_discipline_actual :
    (lockedWrites (assignTrace true) ∧ lockedWrites (assignTrace false)) ∧
    provisionUnderLock (assignTrace true) ∧
    (mapsOutsideLock (updateTrace 0) ∧ mapsOutsideLock (updateTrace 1) ∧
     mapsOutsideLock (updateTrace 2)) ∧
    (cacheUnderLock (updateTrace 0) ∧ cacheUnderLock (updateTrace 1) ∧
     cacheUnderLock (updateTrace 2)) := by
  decide

/-! ## Claim C8: decommission error handling -/

/-- C8.  `stop_docker_container` does absorb every stop error, but the
full cleanup path does not: with no driver and no container (the state
after a failed `start_driver`, reached by `main`'s `finally` block),
`stop_driver` raises `AttributeError`, because the final `shutil.rmtree`
dereferences `self.docker_container` outside its `None` guard.  The code
contradicts the never-fails-outward design. -/
theorem stop_driver_crashes :
    (∀ osStop, stopDockerContainer osStop = Except.ok ()) ∧
    stopDriver (Except.ok ()) (Except.ok 0) none none =
      Except.error "AttributeError: NoneType object has no attribute download_dir" := by
  constructor
  · intro osStop
    cases osStop <;> rfl
  · rfl

/-! ## Claim C9: PDF fallback in the scrape orchestrator -/

/-- C9.  Whenever the page-text extraction comes back falsy (`None` or
empty) and the download directory contains a PDF file, `_return_page_html`
returns the PDF text extraction substituted for both `page_html` and
`page_text`, an empty link list and no screenshot. -/
theorem fetch_pdf_fallback (pageHtml shot : String) (links : List String)
    (pageText : Option String) (dir : String) (files : List String)
    (pdfText : String → String)
    (hfalsy : pyFalsy pageText = true)
    (hpdf : ∃ f ∈ files, pyEndsWith (pathJoin dir f) ".pdf" = true) :
    ∃ f ∈ files, pyEndsWith (pathJoin dir f) ".pdf" = true ∧
      returnPageHtml pageHtml shot links pageText dir files pdfText =
        (some (pdfText (pathJoin dir f)), some (pdfText (pathJoin dir f)),
         [], none) := by
  have hsome : (findPdf dir files).isSome := by
    rw [findPdf, List.find?_isSome]
    rcases hpdf with ⟨f, hf, hp⟩
    exact ⟨f, hf, hp⟩
  rcases hfp : findPdf dir files with _ | f
  · rw [hfp] at hsome
    simp at hsome
  · have hfp2 : files.find? (fun g => pyEndsWith (pathJoin dir g) ".pdf") = some f := hfp
    have hpf := List.find?_some hfp2
    refine ⟨f, List.mem_of_find?_eq_some hfp2, by simpa using hpf, ?_⟩
    rw [returnPageHtml, if_pos hfalsy, hfp]

/-- C9, witness: a concrete falsy extraction with one PDF among the
downloaded files. -/
theorem fetch_pdf_fallback_witness :
    ∃ f ∈ ["a.txt", "doc.pdf"],
      pyEndsWith (pathJoin "downloads/selenium-chrome1" f) ".pdf" = true ∧
      returnPageHtml "<html></html>" "shot" ["link"] none
        "downloads/selenium-chrome1" ["a.txt", "doc.pdf"] (fun _ => "PDF TEXT") =
        (some "PDF TEXT", some "PDF TEXT", [], none) :=
  fetch_pdf_fallback "<html></html>" "shot" ["link"] none
    "downloads/selenium-chrome1" ["a.txt", "doc.pdf"] (fun _ => "PDF TEXT")
    (by decide) ⟨"doc.pdf", by decide, by decide⟩

/-! ## Claim C10: which containers count as in use -/

/-- C10.  An identity counts as in use only when the listed container's
`Image` equals the configured image and its `State` is exactly
`"running"` (so the id set is untouched by non-matching entries), the
identity space is exactly `range(1, 250)` = 1..249, and the identity of
a stopped container is handed out again. -/
theorem allocator_counts_running_only (cfg : DockerConfig) :
    (∀ d info, ¬ (d.Image = cfg.image ∧ d.State = "running") →
      existIds cfg.image (d :: info) = existIds cfg.image info) ∧
    (∀ i : Nat, i ∈ freeIdsOf defaultConfig.image [] ↔ 1 ≤ i ∧ i ≤ 249) ∧
    getFreeDockerId defaultConfig.image
      [⟨defaultConfig.image, "exited", "selenium-chrome1"⟩] (fun l => l) =
      some 1 := by
  refine ⟨?_, ?_, by decide⟩
  · intro d info hd
    rw [existIds, if_neg hd]
  · intro i
    have h : freeIdsOf defaultConfig.image [] = List.range' 1 249 := by decide
    rw [h, mem_range_one]

/-- C10, witness: the exited container of the third conjunct does not
block reallocation of identity 1, and 1 lies in the identity space. -/
theorem allocator_counts_running_only_witness :
    existIds defaultConfig.image
      ([⟨defaultConfig.image, "exited", "selenium-chrome7"⟩] :
        List DockerPS) = existIds defaultConfig.image [] ∧
    (1 ∈ freeIdsOf defaultConfig.image [] ↔ 1 ≤ 1 ∧ 1 ≤ 249) :=
  ⟨(allocator_counts_running_only defaultConfig).1
      ⟨defaultConfig.image, "exited", "selenium-chrome7"⟩ [] (by decide),
   (allocator_counts_running_only defaultConfig).2.1 1⟩

/-! ## Claim C4: the identity allocator -/

/-- C4, counterexample.  The claim that `get_free_docker_id` fails
exactly when every identity of the space is live is refuted by a single
running container of the configured image whose name does not parse to
an integer after the `selenium-chrome` strip: the caught `ValueError`
makes the call return `None` although no identity (1, for instance) is
live. -/
theorem allocator_claim_false :
    getFreeDockerId defaultConfig.image infoBad (fun l => l) = none ∧
    ¬ (∀ i : Nat, 1 ≤ i → i ≤ 249 → ∃ d ∈ infoBad,
        d.Image = defaultConfig.image ∧ d.State = "running" ∧
        pyParseId d.Names = some (i : Int)) := by
  constructor
  · decide
  · intro h
    have h1 := h 1 (by decide) (by decide)
    revert h1
    decide

/-- C4, amended.  For every listing and every permutation shuffle, an
allocated identity is never among the parsed ids of the running
matching containers and always lies in 1..249; and the call returns
`None` exactly when id parsing raised (a malformed matching name) or
every identity of the space 1..249 is among the parsed live ids. -/
theorem allocator_correct (image : String) (info : List DockerPS)
    (shuffle : List Nat → List Nat) (hsh : PermFun shuffle) :
    (∀ (i : Nat) (ids : List Int),
       getFreeDockerId image info shuffle = some i →
       existIds image info = some ids →
       ¬ (i : Int) ∈ ids ∧ 1 ≤ i ∧ i ≤ 249) ∧
    (getFreeDockerId image info shuffle = none ↔
      (existIds image info = none ∨
       ∀ ids, existIds image info = some ids →
         ∀ i : Nat, 1 ≤ i → i ≤ 249 → (i : Int) ∈ ids)) := by
  constructor
  · intro i ids hg hex
    have hmem := getFree_some_mem hsh hg
    rw [freeIdsOf, hex] at hmem
    rcases List.mem_filter.1 hmem with ⟨hr, hdec⟩
    exact ⟨of_decide_eq_true hdec, (mem_range_one.1 hr).1, (mem_range_one.1 hr).2⟩
  · cases hex : existIds image info with
    | none =>
      simp only [getFreeDockerId, hex]
      simp
    | some ids =>
      constructor
      · intro hnone
        have hfree_nil : freeIdsOf image info = [] := by
          rcases hsf : shuffle (freeIdsOf image info) with _ | ⟨j, rest⟩
          · exact (permFun_nil_iff hsh).1 hsf
          · exfalso
            rw [getFreeDockerId, hex, hsf] at hnone
            exact absurd hnone (by simp)
        rw [freeIdsOf, hex] at hfree_nil
        have hall := List.filter_eq_nil_iff.1 hfree_nil
        refine Or.inr ?_
        intro ids2 hids2 i h1 h2
        have hids : ids2 = ids := (Option.some.inj hids2).symm
        subst hids
        have hi := hall i (mem_range_one.2 ⟨h1, h2⟩)
        simpa using hi
      · intro hR
        rcases hR with hnone2 | hall
        · exact absurd hnone2 (by simp)
        · have hfree : freeIdsOf image info = [] := by
            rw [freeIdsOf, hex]
            apply List.filter_eq_nil_iff.2
            intro a ha
            have hin := hall ids rfl a (mem_range_one.1 ha).1 (mem_range_one.1 ha).2
            simpa using hin
          have hsf : shuffle (freeIdsOf image info) = [] :=
            (permFun_nil_iff hsh).2 hfree
          simp only [getFreeDockerId, hex, hsf]

/-- C4, witness: with identities 3 and 7 live (the scenario live set),
the allocation never collides with them — the identity-shuffle instance
picks 1, which is neither 3 nor 7 and lies in the space. -/
theorem allocator_correct_witness :
    ¬ ((1 : Nat) : Int) ∈ ([3, 7] : List Int) ∧ 1 ≤ 1 ∧ 1 ≤ 249 :=
  (allocator_correct defaultConfig.image infoLive37 (fun l => l)
      (fun l => List.Perm.refl l)).1 1 [3, 7] (by decide) (by decide)

/-! ## Claim C6: where provisioning gets its live set -/

/-- C6, counterexample.  Provisioning does not consult the runtime's
current listing: with the current listing empty but the manager's cached
listing showing identity 1 running, `start_selenium_docker` allocates
identity 2 — a different outcome from the same call driven by the fresh
(empty) listing, which allocates 1.  The allocation set comes from the
cached `self.docker_info`, not from a fresh Runtime Adapter call. -/
theorem provision_fresh_listing_false :
    (startSeleniumDocker defaultConfig (fun l => l) cachedOne envAllOk).1 ≠
      (startSeleniumDocker defaultConfig (fun l => l) envAllOk.live envAllOk).1 ∧
    (startSeleniumDocker defaultConfig (fun l => l) cachedOne envAllOk).1 =
      some contTwo ∧
    envAllOk.live = [] :=
  ⟨by decide, by decide, rfl⟩

/-- C6, amended.  The identity chosen by provisioning is free with
respect to the manager's cached listing (`self.docker_info` as of the
last `update_docker_info` call), not with respect to the runtime's
current listing. -/
theorem provision_uses_cached {cfg : DockerConfig}
    {shuffle : List Nat → List Nat} {cached : List DockerPS}
    {env e : RuntimeEnv} {c : DockerContainer} (hsh : PermFun shuffle)
    (h : startSeleniumDocker cfg shuffle cached env = (some c, e)) :
    ∃ (i : Nat) (ids : List Int), existIds cfg.image cached = some ids ∧
      ¬ (i : Int) ∈ ids ∧ c.name = mkName i := by
  rcases start_shape hsh h with ⟨i, ids, h1, h2, _, _, hc, _, _⟩
  exact ⟨i, ids, h1, h2, by rw [hc]⟩

/-- C6, witness: the concrete stale-cache provisioning of the
counterexample indeed allocated an identity free in the cached listing. -/
theorem provision_uses_cached_witness :
    ∃ (i : Nat) (ids : List Int),
      existIds defaultConfig.image cachedOne = some ids ∧
      ¬ (i : Int) ∈ ids ∧ contTwo.name = mkName i :=
  @provision_uses_cached defaultConfig (fun l => l) cachedOne envAllOk
    (startSeleniumDocker defaultConfig (fun l => l) cachedOne envAllOk).2
    contTwo (fun l => List.Perm.refl l) (Prod.ext (by decide) rfl)

/-! ## Claim C7: failed assignment is atomic on the maps -/

/-- C7.  When no unassigned container exists and provisioning fails, the
`assign_container` call surfaces the failure to its caller synchronously
(the uncaught `AttributeError`, modelled as `none`), performs exactly one
provisioning attempt (no retry inside the pool manager), and leaves the
pool state — `containers` and `assigned` both — exactly as it was. -/
theorem assign_failure_atomic (cfg : DockerConfig)
    (pick : List String → List String) (shuffle : List Nat → List Nat)
    (env : RuntimeEnv) (s : PoolState) (hpick : PermFunS pick)
    (hempty : unassignedKeys s = [])
    (hfail : (startSeleniumDocker cfg shuffle s.managerInfo env).1 = none) :
    (assignContainer cfg pick shuffle env s).result = none ∧
    (assignContainer cfg pick shuffle env s).pool = s ∧
    (assignContainer cfg pick shuffle env s).provisionCalls = 1 := by
  have hpnil : pick (unassignedKeys s) = [] := by
    rw [hempty]
    exact (hpick []).eq_nil
  cases hs : startSeleniumDocker cfg shuffle s.managerInfo env with
  | mk o e =>
    cases o with
    | none =>
      simp [assignContainer, hpnil, hs]
    | some c =>
      rw [hs] at hfail
      exact absurd hfail (by simp)

/-- C7, witness: from the empty pool with a runtime that rejects every
start, the assign call fails, changes nothing and provisioned once. -/
theorem assign_failure_atomic_witness :
    (assignContainer defaultConfig (fun l => l) (fun l => l) envReject
      ⟨[], [], []⟩).result = none ∧
    (assignContainer defaultConfig (fun l => l) (fun l => l) envReject
      ⟨[], [], []⟩).pool = ⟨[], [], []⟩ ∧
    (assignContainer defaultConfig (fun l => l) (fun l => l) envReject
      ⟨[], [], []⟩).provisionCalls = 1 :=
  assign_failure_atomic defaultConfig (fun l => l) (fun l => l) envReject
    ⟨[], [], []⟩ (fun l => List.Perm.refl l) (by decide) (by decide)

/-! ## Claim C2: reconciliation removes dead identities -/

/-- C2, counterexample.  From `known = {selenium-chrome1, selenium-chrome2}`,
`assigned = {selenium-chrome1}`, reconciling against the live listing
`{selenium-chrome1}` does not yield `known = {selenium-chrome1}`: after
the removal the spare top-up provisions against the just-refreshed
listing, in which the dead identity 2 is free again, so the reconcile
returns with `selenium-chrome2` — the very identity it observed absent —
present in `known` once more. -/
theorem reconcile_claim_false :
    dkeys (updateDockerInfo defaultConfig (fun _ => fun l => l) envOne
        poolAB).1.containers =
      ["selenium-chrome1", "selenium-chrome2"] ∧
    ¬ "selenium-chrome2" ∈ envOne.live.map DockerPS.Names ∧
    dkeys poolAB.containers = ["selenium-chrome1", "selenium-chrome2"] ∧
    dkeys poolAB.assigned = ["selenium-chrome1"] :=
  ⟨by decide, by decide, by decide, by decide⟩

/-- C2, amended.  Immediately after the removal phase of
`update_docker_info`, an identity absent from the live listing is absent
from both `containers` and `assigned` (whether or not it was assigned,
given `assigned ⊆ containers`); the full reconcile never re-adds it to
`assigned`, though the spare top-up may re-add the identity to
`containers` as a freshly provisioned container. -/
theorem reconcile_removes (cfg : DockerConfig)
    (shuffles : Nat → List Nat → List Nat) (env : RuntimeEnv)
    (s : PoolState) (X : String)
    (hsub : ∀ k ∈ dkeys s.assigned, k ∈ dkeys s.containers)
    (hX : ¬ X ∈ env.live.map DockerPS.Names) :
    (¬ X ∈ dkeys (reconciledState env s).containers ∧
     ¬ X ∈ dkeys (reconciledState env s).assigned) ∧
    ¬ X ∈ dkeys (updateDockerInfo cfg shuffles env s).1.assigned := by
  have hdead : X ∈ dkeys s.containers →
      X ∈ deadOf { s with managerInfo := env.live } (env.live.map DockerPS.Names) := by
    intro hx
    exact List.mem_filter.2 ⟨hx, by simpa using hX⟩
  have hcont : ¬ X ∈ dkeys (reconciledState env s).containers := by
    intro hmem
    rcases mem_dkeys.1 hmem with ⟨p, hp, hpX⟩
    rcases List.mem_filter.1 hp with ⟨hp1, hp2⟩
    have hXin : X ∈ dkeys s.containers := mem_dkeys.2 ⟨p, hp1, hpX⟩
    have : ¬ p.fst ∈ deadOf { s with managerInfo := env.live }
        (env.live.map DockerPS.Names) := of_decide_eq_true hp2
    rw [hpX] at this
    exact this (hdead hXin)
  have hasg : ¬ X ∈ dkeys (reconciledState env s).assigned := by
    intro hmem
    rcases mem_dkeys.1 hmem with ⟨p, hp, hpX⟩
    rcases List.mem_filter.1 hp with ⟨hp1, hp2⟩
    have hXin : X ∈ dkeys s.containers :=
      hsub X (mem_dkeys.2 ⟨p, hp1, hpX⟩)
    have : ¬ p.fst ∈ deadOf { s with managerInfo := env.live }
        (env.live.map DockerPS.Names) := of_decide_eq_true hp2
    rw [hpX] at this
    exact this (hdead hXin)
  refine ⟨⟨hcont, hasg⟩, ?_⟩
  unfold updateDockerInfo
  by_cases hc : ((reconciledState env s).containers.length : Int) -
      ((reconciledState env s).assigned.length : Int) <
      (MINIMUM_SELENIUM_CONTAINERS : Int)
  · rw [if_pos hc]
    intro hmem
    rw [topup_assigned] at hmem
    exact hasg hmem
  · rw [if_neg hc]
    exact hasg

/-- C2, witness: the scenario instance — after reconciling `poolAB`
against the live listing `{selenium-chrome1}`, the dead
`selenium-chrome2` is gone from both maps of the removal phase and from
the final `assigned`. -/
theorem reconcile_removes_witness :
    (¬ "selenium-chrome2" ∈ dkeys (reconciledState envOne poolAB).containers ∧
     ¬ "selenium-chrome2" ∈ dkeys (reconciledState envOne poolAB).assigned) ∧
    ¬ "selenium-chrome2" ∈ dkeys (updateDockerInfo defaultConfig
        (fun _ => fun l => l) envOne poolAB).1.assigned :=
  reconcile_removes defaultConfig (fun _ => fun l => l) envOne poolAB
    "selenium-chrome2" (by decide) (by decide)

/-! ## Claim C5: assigned is a subset of known -/

theorem poolInv_assign (cfg : DockerConfig) (pick : List String → List String)
    (shuffle : List Nat → List Nat) (env : RuntimeEnv) (s : PoolState)
    (h : PoolInv s) : PoolInv (assignContainer cfg pick shuffle env s).pool := by
  obtain ⟨hkc, hsub⟩ := h
  unfold assignContainer
  cases hp : pick (unassignedKeys s) with
  | nil =>
    cases hs : startSeleniumDocker cfg shuffle s.managerInfo env with
    | mk o e =>
      cases o with
      | none => exact ⟨hkc, hsub⟩
      | some c =>
        dsimp only
        constructor
        · exact kc_dinsert hkc rfl
        · intro k hk
          rcases mem_dkeys_dinsert.1 hk with h1 | rfl
          · exact mem_dkeys_dinsert.2 (Or.inl (hsub k h1))
          · exact mem_dkeys_dinsert.2 (Or.inr rfl)
  | cons k0 ks =>
    dsimp only
    cases hg : dget s.containers k0 with
    | none => exact ⟨hkc, hsub⟩
    | some c =>
      dsimp only
      have hmem0 : (k0, c) ∈ s.containers := dget_some hg
      have hname : c.name = k0 := hkc (k0, c) hmem0
      constructor
      · exact hkc
      · intro k hk
        rcases mem_dkeys_dinsert.1 hk with h1 | rfl
        · exact hsub k h1
        · rw [hname]
          exact mem_dkeys.2 ⟨(k0, c), hmem0, rfl⟩

theorem poolInv_update (cfg : DockerConfig)
    (shuffles : Nat → List Nat → List Nat) (env : RuntimeEnv) (s : PoolState)
    (h : PoolInv s) : PoolInv (updateDockerInfo cfg shuffles env s).1 := by
  obtain ⟨hkc, hsub⟩ := h
  have h1 : PoolInv (reconciledState env s) := by
    constructor
    · exact kc_filter hkc
    · intro k hk
      rcases mem_dkeys.1 hk with ⟨p, hp, hpk⟩
      rcases List.mem_filter.1 hp with ⟨hp1, hp2⟩
      have hk2 : k ∈ dkeys s.containers :=
        hsub k (mem_dkeys.2 ⟨p, hp1, hpk⟩)
      rcases mem_dkeys.1 hk2 with ⟨q, hq, hqk⟩
      refine mem_dkeys.2 ⟨q, List.mem_filter.2 ⟨hq, ?_⟩, hqk⟩
      rw [show q.fst = p.fst from hqk.trans hpk.symm]
      exact hp2
  unfold updateDockerInfo
  by_cases hc : ((reconciledState env s).containers.length : Int) -
      ((reconciledState env s).assigned.length : Int) <
      (MINIMUM_SELENIUM_CONTAINERS : Int)
  · rw [if_pos hc]
    constructor
    · exact topup_kc cfg shuffles MINIMUM_SELENIUM_CONTAINERS 0
        (reconciledState env s) env h1.1
    · intro k hk
      rw [topup_assigned] at hk
      exact topup_containers_mono cfg shuffles MINIMUM_SELENIUM_CONTAINERS 0
        (reconciledState env s) env k (h1.2 k hk)
  · rw [if_neg hc]
    exact h1

theorem reachable_inv (cfg : DockerConfig) (s : PoolState)
    (h : Reachable cfg s) : PoolInv s := by
  induction h with
  | init =>
    constructor
    · intro p hp
      simp at hp
    · intro k hk
      simp [dkeys] at hk
  | assignStep pick shuffle env s hs ih =>
    exact poolInv_assign cfg pick shuffle env s ih
  | updateStep shuffles env s hs ih =>
    exact poolInv_update cfg shuffles env s ih

/-- C5.  The invariant `assigned ⊆ known` holds at every observable
point: in every pool state reachable from the initial empty state by any
sequence of `assign_container` and `update_docker_info` steps (under
arbitrary runtime oracles and orderings), every key of `assigned` is
also a key of `containers`. -/
theorem assigned_subset_known (cfg : DockerConfig) (s : PoolState)
    (h : Reachable cfg s) : ∀ k ∈ dkeys s.assigned, k ∈ dkeys s.containers :=
  (reachable_inv cfg s h).2

/-- C5, witness: the state reached by one successful assign from the
empty pool has `selenium-chrome1` assigned, and the theorem places it in
`containers`. -/
theorem assigned_subset_known_witness :
    "selenium-chrome1" ∈ dkeys (assignContainer defaultConfig (fun l => l)
      (fun l => l) envAllOk ⟨[], [], []⟩).pool.containers :=
  assigned_subset_known defaultConfig _
    (Reachable.assignStep (fun l => l) (fun l => l) envAllOk ⟨[], [], []⟩
      Reachable.init)
    "selenium-chrome1" (by decide)

/-! ## Claim C1: assignment correctness -/

theorem shuffleTwo_perm : PermFun shuffleTwo := by
  intro l
  unfold shuffleTwo
  by_cases h : 2 ∈ l
  · rw [if_pos h]
    exact (List.perm_cons_erase h).symm
  · rw [if_neg h]

theorem assign_distinct_next (cfg : DockerConfig)
    (pick2 : List String → List String) (shuffle2 : List Nat → List Nat)
    (env2 : RuntimeEnv) (s1 : PoolState) (c1 : DockerContainer)
    (hpick2 : PermFunS pick2) (hkc1 : KeysConsistent s1.containers)
    (hc1A : c1.name ∈ dkeys s1.assigned)
    (hblock : ∀ (c2 : DockerContainer) (e2 : RuntimeEnv),
      startSeleniumDocker cfg shuffle2 s1.managerInfo env2 = (some c2, e2) →
      c2.name ≠ c1.name) :
    ∀ c2, (assignContainer cfg pick2 shuffle2 env2 s1).result = some c2 →
      c2.name ≠ c1.name := by
  intro c2 h2
  unfold assignContainer at h2
  cases hp2 : pick2 (unassignedKeys s1) with
  | nil =>
    rw [hp2] at h2
    cases hs2 : startSeleniumDocker cfg shuffle2 s1.managerInfo env2 with
    | mk o2 e2 =>
      rw [hs2] at h2
      cases o2 with
      | none => simp at h2
      | some c2x =>
        obtain rfl : c2x = c2 := by simpa using h2
        exact hblock c2x e2 hs2
  | cons k2 ks2 =>
    rw [hp2] at h2
    dsimp only at h2
    cases hg2 : dget s1.containers k2 with
    | none =>
      rw [hg2] at h2
      simp at h2
    | some cx =>
      rw [hg2] at h2
      obtain rfl : cx = c2 := by simpa using h2
      have hmem2 : (k2, cx) ∈ s1.containers := dget_some hg2
      have hname2 : cx.name = k2 := hkc1 _ hmem2
      have hk2mem : k2 ∈ unassignedKeys s1 := permFunS_head_mem hpick2 hp2
      have hk2not : ¬ k2 ∈ dkeys s1.assigned := by
        have hf := List.mem_filter.1 hk2mem
        simpa using hf.2
      intro heq
      rw [hname2] at heq
      exact hk2not (heq ▸ hc1A)

/-- C1, counterexample.  From a pool state in which the single container
`selenium-chrome5` is assigned but the manager's cached listing is empty
(it was provisioned after the last reconciliation and its container has
since died in the runtime), `assign_container` provisions with a shuffle
that — legitimately, as the permutation conjunct shows — draws identity 5
again, and returns a record whose identity was already in `assigned` at
the start of the call: a second caller receives the identity the first
caller still holds. -/
theorem assign_fresh_claim_false :
    (assignContainer defaultConfig (fun l => l) shuffleFive envAllOk
      poolStale).result = some contFive ∧
    contFive.name ∈ dkeys poolStale.assigned ∧
    (shuffleFive (freeIdsOf defaultConfig.image poolStale.managerInfo)).Perm
      (freeIdsOf defaultConfig.image poolStale.managerInfo) := by
  refine ⟨by decide, by decide, ?_⟩
  have h5 : 5 ∈ freeIdsOf defaultConfig.image poolStale.managerInfo := by decide
  rw [shuffleFive, if_pos h5]
  exact (List.perm_cons_erase h5).symm

/-- C1, amended.  Under the cache-freshness hypothesis that every known
identity is backed by the manager's cached listing (no container died
since the listing was taken), `assign_container` returns a record whose
identity was not in `assigned` at the start of the call and is in both
`containers` and `assigned` at return; when unassigned spares exist it
provisions nothing and returns an existing unassigned record; when none
exist it makes exactly one provisioning attempt; and a second
`assign_container` call, run against the returned pool and runtime state
(no intervening removal or external runtime change), never returns the
same identity. -/
theorem assign_correct (cfg : DockerConfig)
    (pick pick2 : List String → List String)
    (shuffle shuffle2 : List Nat → List Nat) (env : RuntimeEnv)
    (s : PoolState) (hpick : PermFunS pick) (hsh : PermFun shuffle)
    (hpick2 : PermFunS pick2) (hsh2 : PermFun shuffle2)
    (hkc : KeysConsistent s.containers)
    (hsub : ∀ k ∈ dkeys s.assigned, k ∈ dkeys s.containers)
    (hfresh : cacheFresh cfg s) :
    (∀ c, (assignContainer cfg pick shuffle env s).result = some c →
       ¬ c.name ∈ dkeys s.assigned ∧
       c.name ∈ dkeys (assignContainer cfg pick shuffle env s).pool.containers ∧
       c.name ∈ dkeys (assignContainer cfg pick shuffle env s).pool.assigned) ∧
    (unassignedKeys s ≠ [] →
       (assignContainer cfg pick shuffle env s).provisionCalls = 0 ∧
       ∃ c, (assignContainer cfg pick shuffle env s).result = some c ∧
         c.name ∈ dkeys s.containers ∧ ¬ c.name ∈ dkeys s.assigned ∧
         dget s.containers c.name = some c) ∧
    (unassignedKeys s = [] →
       (assignContainer cfg pick shuffle env s).provisionCalls = 1) ∧
    (∀ c1 c2, (assignContainer cfg pick shuffle env s).result = some c1 →
       (assignContainer cfg pick2 shuffle2
          (assignContainer cfg pick shuffle env s).env
          (assignContainer cfg pick shuffle env s).pool).result = some c2 →
       c2.name ≠ c1.name) := by
  obtain ⟨ids, hex, hfreshK⟩ := hfresh
  unfold assignContainer
  cases hp : pick (unassignedKeys s) with
  | nil =>
    have hU : unassignedKeys s = [] := (permFunS_nil_iff hpick).1 hp
    cases hs : startSeleniumDocker cfg shuffle s.managerInfo env with
    | mk o e =>
      cases o with
      | none =>
        dsimp only
        refine ⟨?_, ?_, fun _ => rfl, ?_⟩
        · intro c hc
          simp at hc
        · intro hne
          exact absurd hU hne
        · intro c1 c2 h1 h2
          simp at h1
      | some c =>
        dsimp only
        rcases start_shape hsh hs with
          ⟨i, ids2, hex2, hnotin, _, _, hcform, hclive, helive⟩
        have hids2 : ids2 = ids := by
          rw [hex] at hex2
          exact (Option.some.inj hex2).symm
        subst hids2
        have hcnotW : ¬ c.name ∈ dkeys s.containers := by
          intro hmem
          exact (hfreshK c.name hmem i hnotin) (by rw [hcform])
        have hcnotA : ¬ c.name ∈ dkeys s.assigned := fun hmem =>
          hcnotW (hsub _ hmem)
        refine ⟨?_, ?_, fun _ => rfl, ?_⟩
        · intro c0 hc0
          obtain rfl : c = c0 := by simpa using hc0
          exact ⟨hcnotA, mem_dkeys_dinsert.2 (Or.inr rfl),
            mem_dkeys_dinsert.2 (Or.inr rfl)⟩
        · intro hne
          exact absurd hU hne
        · intro c1 c2 h1 h2
          obtain rfl : c = c1 := by simpa using h1
          refine assign_distinct_next cfg pick2 shuffle2 e
            ⟨dinsert s.containers c.name c, dinsert s.assigned c.name c,
             s.managerInfo⟩ c hpick2 (kc_dinsert hkc rfl)
            (mem_dkeys_dinsert.2 (Or.inr rfl)) ?_ c2 h2
          intro c2x e2x hs2x
          rcases start_shape hsh2 hs2x with
            ⟨i2, ids2x, hex2x, hnotin2x, _, _, hcform2x, hclive2x, _⟩
          intro heq
          apply hclive2x
          rw [heq, helive]
          simp
  | cons k0 ks =>
    dsimp only
    have hUne : unassignedKeys s ≠ [] := by
      intro h0
      rw [h0] at hp
      have := (hpick []).eq_nil
      rw [this] at hp
      exact absurd hp (by simp)
    have hk0U : k0 ∈ unassignedKeys s := permFunS_head_mem hpick hp
    have hk0W : k0 ∈ dkeys s.containers := (List.mem_filter.1 hk0U).1
    have hk0A : ¬ k0 ∈ dkeys s.assigned := by
      have hf := List.mem_filter.1 hk0U
      simpa using hf.2
    cases hg : dget s.containers k0 with
    | none =>
      exfalso
      rcases mem_dkeys_dget hk0W with ⟨c0, hc0⟩
      rw [hg] at hc0
      exact absurd hc0 (by simp)
    | some c =>
      dsimp only
      have hmem0 : (k0, c) ∈ s.containers := dget_some hg
      have hname : c.name = k0 := hkc _ hmem0
      refine ⟨?_, ?_, ?_, ?_⟩
      · intro c0 hc0
        obtain rfl : c = c0 := by simpa using hc0
        exact ⟨by rw [hname]; exact hk0A, by rw [hname]; exact hk0W,
          mem_dkeys_dinsert.2 (Or.inr rfl)⟩
      · intro _
        refine ⟨rfl, c, rfl, ?_, ?_, ?_⟩
        · rw [hname]; exact hk0W
        · rw [hname]; exact hk0A
        · rw [hname]; exact hg
      · intro h0
        exact absurd h0 hUne
      · intro c1 c2 h1 h2
        obtain rfl : c = c1 := by simpa using h1
        refine assign_distinct_next cfg pick2 shuffle2 env
          ⟨s.containers, dinsert s.assigned c.name c, s.managerInfo⟩ c
          hpick2 hkc (mem_dkeys_dinsert.2 (Or.inr rfl)) ?_ c2 h2
        intro c2x e2x hs2x
        rcases start_shape hsh2 hs2x with
          ⟨i2, ids2x, hex2x, hnotin2x, _, _, hcform2x, _, _⟩
        have hids2x : ids2x = ids := by
          rw [hex] at hex2x
          exact (Option.some.inj hex2x).symm
        subst hids2x
        intro heq
        apply hfreshK k0 hk0W i2 hnotin2x
        rw [← hname, ← heq, hcform2x]

/-- C1, witness: from the empty pool (trivially cache-fresh), the first
assign provisions exactly once and a second assign — which provisions
identity 2 under a shuffle preferring it — returns a different identity
from the first call. -/
theorem assign_correct_witness :
    (assignContainer defaultConfig (fun l => l) (fun l => l) envAllOk
      ⟨[], [], []⟩).provisionCalls = 1 ∧
    contTwo.name ≠ contOne.name := by
  have h := assign_correct defaultConfig (fun l => l) (fun l => l)
    (fun l => l) shuffleTwo envAllOk ⟨[], [], []⟩
    (fun l => List.Perm.refl l) (fun l => List.Perm.refl l)
    (fun l => List.Perm.refl l) shuffleTwo_perm
    (fun p hp => absurd hp (List.not_mem_nil p))
    (fun k hk => absurd hk (List.not_mem_nil k))
    ⟨[], rfl, fun k hk => absurd hk (List.not_mem_nil k)⟩
  exact ⟨h.2.2.1 rfl, h.2.2.2 contOne contTwo (by decide) (by decide)⟩

end CrawlDock
